import Mathlib

/-!
Verification of the design-pattern demo repository against its specification.

Each namespace shallowly embeds one Go demo file:
* `CoffeeShop`       — patterns/structural/decorator/main.go
* `CardDemo`         — patterns/structural/decorator/example2/main.go
* `FactoryStrategy`  — patterns/behavioral/factory_strategy_demo/main.go
* `NotifierFactory`  — the notifier factory file (package factory, `NewNotifer`)
* `EnvFactory`       — the env-var payment factory file (package factory, `main`)
* `CommandDemo`      — patterns/behavioral/command_example/main.go
* `ObserverDemo`     — the publisher/subscriber file (package main, `Publisher`)
* `SingletonDemo`    — patterns/creational/singleton (sync.Once guarded accessors)
* `OnceModel`        — an interleaving model of N goroutines racing through the
                       sync.Once fast-path / mutex slow-path of `GetLogger`
-/

namespace CoffeeShop

/-- Concrete decorator chains over the `Coffee` interface: `SimpleCoffee` is the
terminal base component, `Milk` and `Sugar` each wrap one inner `Coffee`. -/
inductive Coffee : Type
  | simple : Coffee
  | milk (inner : Coffee) : Coffee
  | sugar (inner : Coffee) : Coffee
deriving DecidableEq

/-- `Cost() int`: SimpleCoffee returns 5; Milk returns inner cost + 2; Sugar
returns inner cost + 1. -/
def Coffee.cost : Coffee → Int
  | .simple => 5
  | .milk inner => inner.cost + 2
  | .sugar inner => inner.cost + 1

/-- `Ingredients() string`: SimpleCoffee returns "Coffee"; Milk appends ", Milk"
to the inner description; Sugar appends ", Sugar". -/
def Coffee.ingredients : Coffee → String
  | .simple => "Coffee"
  | .milk inner => inner.ingredients ++ ", Milk"
  | .sugar inner => inner.ingredients ++ ", Sugar"

end CoffeeShop

namespace CardDemo

/-- Concrete `PaymentCard` values of decorator/example2: the base `BasiCard`,
the `CardDecorator` wrapper, and the `Rewards` wrapper (which embeds a
`CardDecorator` that in turn embeds the wrapped `PaymentCard`). -/
inductive PaymentCard : Type
  | basiCard : PaymentCard
  | cardDecorator (inner : PaymentCard) : PaymentCard
  | rewards (inner : PaymentCard) : PaymentCard
deriving DecidableEq

/-- `GetAnnualFee() int` as written in the source: `BasiCard` returns 0;
`CardDecorator` returns the constant 50; `Rewards` returns the constant 50.
Neither wrapper consults its embedded inner `PaymentCard`. -/
def PaymentCard.getAnnualFee : PaymentCard → Int
  | .basiCard => 0
  | .cardDecorator _ => 50
  | .rewards _ => 50

/-- `GetFeatures() string` as written in the source: all three return the
constant "Features: Basic Payment"; the wrappers never call inward. -/
def PaymentCard.getFeatures : PaymentCard → String
  | .basiCard => "Features: Basic Payment"
  | .cardDecorator _ => "Features: Basic Payment"
  | .rewards _ => "Features: Basic Payment"

end CardDemo

namespace FactoryStrategy

/-- The three concrete processors of factory_strategy_demo. -/
inductive PaymentProcessor : Type
  | payPalProcessor : PaymentProcessor
  | stripeProcessor : PaymentProcessor
  | cryptoProcessor : PaymentProcessor
deriving DecidableEq

/-- `NewPaymentProcessor(provider string) (PaymentProcessor, error)`: a switch
on the provider string; unknown providers yield
`fmt.Errorf("unsupported provider: %s", provider)`. -/
def NewPaymentProcessor (provider : String) : Except String PaymentProcessor :=
  if provider = "paypal" then .ok .payPalProcessor
  else if provider = "stripe" then .ok .stripeProcessor
  else if provider = "crypto" then .ok .cryptoProcessor
  else .error ("unsupported provider: " ++ provider)

end FactoryStrategy

namespace NotifierFactory

/-- The two concrete notifiers of the notifier-factory file. -/
inductive Notifier : Type
  | emailNotifier : Notifier
  | smsNotifier : Notifier
deriving DecidableEq

/-- `NewNotifer(kind string) Notifier`: a switch on the kind; the default
branch returns the nil interface value, modelled as `none`. -/
def NewNotifer (kind : String) : Option Notifier :=
  if kind = "email" then some .emailNotifier
  else if kind = "sms" then some .smsNotifier
  else none

end NotifierFactory

namespace EnvFactory

/-- The two concrete processors of the env-var payment factory file. -/
inductive PaymentProcessor : Type
  | payPalProcessor : PaymentProcessor
  | stripeProcessor : PaymentProcessor
deriving DecidableEq

/-- `NewPaymentProcessor(provider string) (PaymentProcessor, error)`: paypal and
stripe are known; unknown providers yield
`fmt.Errorf("unsupported payment provider: %s", provider)`. -/
def NewPaymentProcessor (provider : String) : Except String PaymentProcessor :=
  if provider = "paypal" then .ok .payPalProcessor
  else if provider = "stripe" then .ok .stripeProcessor
  else .error ("unsupported payment provider: " ++ provider)

/-- The observable outcome of one run of the demo's `main`. -/
inductive RunOutcome : Type
  | output (lines : List String) : RunOutcome
  | crashed (msg : String) : RunOutcome
deriving DecidableEq

/-- The line `ProcessPayment(63)` prints for each processor. -/
def processLine : PaymentProcessor → String
  | .payPalProcessor => "[PayPal] Payment of $63.00 processed successfully."
  | .stripeProcessor => "[Stripe] Payment of $63.00 processed successfully."

/-- The demo's `main`: `provider := os.Getenv("PAYMENT_PROVIDER")` (the empty
string when the variable is absent); `procesor, _ := NewPaymentProcessor(provider)`
discards the error, so when the factory fails, `procesor` is the nil interface
and `procesor.ProcessPayment(63)` dereferences nil: a runtime panic. -/
def mainRun (env : Option String) : RunOutcome :=
  let provider := env.getD ""
  match NewPaymentProcessor provider with
  | .ok p => .output [processLine p]
  | .error _ =>
      .crashed "runtime error: invalid memory address or nil pointer dereference"

end EnvFactory

namespace CommandDemo

/-- The two concrete commands of command_example, each holding a reference to
the one shared `Light` receiver: `LightOnCommand` and `LightOffCommand`. -/
inductive Cmd : Type
  | lightOnCommand : Cmd
  | lightOffCommand : Cmd
deriving DecidableEq

/-- `Execute()` on the light's `isOn` flag: `LightOnCommand.Execute` calls
`light.TurnOn()` (sets true); `LightOffCommand.Execute` calls `light.TurnOff()`
(sets false). -/
def Cmd.execute : Cmd → Bool → Bool
  | .lightOnCommand, _ => true
  | .lightOffCommand, _ => false

/-- `Undo()`: `LightOnCommand.Undo` calls `light.TurnOff()`;
`LightOffCommand.Undo` calls `light.TurnOn()`. -/
def Cmd.undo : Cmd → Bool → Bool
  | .lightOnCommand, _ => false
  | .lightOffCommand, _ => true

/-- The invoker `RemoteControl` (its `commands` and `history` slices) together
with the shared receiver `Light` (its `isOn` flag). Go indexes `commands` with
an `int`; the demo only ever uses non-negative indices, modelled as `Nat`. -/
structure RCState : Type where
  isOn : Bool
  commands : List Cmd
  history : List Cmd
deriving DecidableEq

/-- `SetCommand` appends a command to the `commands` slice. -/
def setCommand (c : Cmd) (s : RCState) : RCState :=
  { s with commands := s.commands ++ [c] }

/-- `PressButton(index)`: when `index < len(rc.commands)` it executes the
command at `index` and appends it to `history`; otherwise it does nothing. -/
def pressButton (index : Nat) (s : RCState) : RCState :=
  if h : index < s.commands.length then
    let c := s.commands.get ⟨index, h⟩
    { s with isOn := c.execute s.isOn, history := s.history ++ [c] }
  else s

/-- `UndoLast()`: when the history is non-empty, invokes `Undo` of its last
entry and drops that entry; otherwise it does nothing. -/
def undoLast (s : RCState) : RCState :=
  match s.history.getLast? with
  | none => s
  | some last => { s with isOn := last.undo s.isOn, history := s.history.dropLast }

end CommandDemo

namespace ObserverDemo

/-- A `Subscriber` interface value: Go compares them with `==`, which for the
pointer-receiver observers of the demo is pointer identity; each value is
modelled as its pointer. -/
abbrev Subscriber : Type := Nat

/-- The `Publisher` subject: an ordered `subscribers` slice. -/
structure Publisher : Type where
  subscribers : List Subscriber
deriving DecidableEq

/-- `Register` appends to the `subscribers` slice (no de-duplication). -/
def register (sub : Subscriber) (p : Publisher) : Publisher :=
  { p with subscribers := p.subscribers ++ [sub] }

/-- The loop body of `Unregister`: scan for the first entry with `s == sub`,
remove it and break; when no entry matches, leave the slice unchanged. -/
def removeFirst (sub : Subscriber) : List Subscriber → List Subscriber
  | [] => []
  | s :: rest => if s = sub then rest else s :: removeFirst sub rest

/-- `Unregister(sub)` on the publisher. -/
def unregister (sub : Subscriber) (p : Publisher) : Publisher :=
  { p with subscribers := removeFirst sub p.subscribers }

/-- `Notify(article)` loops over the slice in order, synchronously calling each
entry's `Update(article)`; the trace records each invocation as the pair
(subscriber, payload) in call order. -/
def notifyTrace (article : String) : List Subscriber → List (Subscriber × String)
  | [] => []
  | s :: rest => (s, article) :: notifyTrace article rest

/-- `Notify` on the publisher. -/
def notify (article : String) (p : Publisher) : List (Subscriber × String) :=
  notifyTrace article p.subscribers

/-- How many updates observer `o` receives from a notification trace. -/
def updatesTo (o : Subscriber) (trace : List (Subscriber × String)) : Nat :=
  trace.countP (fun ev => ev.1 = o)

end ObserverDemo

namespace SingletonDemo

/-- The process state seen by `GetLogger`: the package-level `instance` pointer
(`none` is Go's nil), the `sync.Once` done flag, a fresh-pointer allocator, and
a count of how many times the initializer body ran. -/
structure SingState : Type where
  inst : Option Nat
  onceDone : Bool
  nextPtr : Nat
  constructions : Nat
deriving DecidableEq

/-- The package initial state: `instance` nil, the `sync.Once` unfired. -/
def initState : SingState :=
  { inst := none, onceDone := false, nextPtr := 0, constructions := 0 }

/-- `GetLogger()` (likewise `GetCounter`/`GetConfig`): `once.Do(func(){ instance
= &Logger{} })` runs the initializer only when the Once has not fired, then
returns `instance`. The returned pointer is modelled as a `Nat` identity. -/
def getLogger (s : SingState) : Nat × SingState :=
  let s' := if s.onceDone then s else
    { inst := some s.nextPtr, onceDone := true,
      nextPtr := s.nextPtr + 1, constructions := s.constructions + 1 }
  (s'.inst.getD 0, s')

/-- A sequence of `n` sequential `GetLogger()` calls from the package initial
state: the list of returned pointers and the final state. -/
def runGetLogger : Nat → List Nat × SingState
  | 0 => ([], initState)
  | n + 1 =>
      let (rs, s) := runGetLogger n
      let (r, s') := getLogger s
      (rs ++ [r], s')

end SingletonDemo

namespace OnceModel

/-- Control state of one goroutine running `GetLogger()` through `once.Do`:
`start` (about to read the Once's done flag), `waitingLock` (saw done unset,
contending for the Once's mutex), `critical` (holds the mutex, about to re-check
done), `initDone` (ran the initializer, still holds the mutex, has yet to store
the done flag), `releasing` (about to unlock), `finished r` (returned pointer
`r`). -/
inductive TState : Type
  | start : TState
  | waitingLock : TState
  | critical : TState
  | initDone : TState
  | releasing : TState
  | finished (result : Nat) : TState
deriving DecidableEq

/-- Whether a goroutine currently holds the Once's mutex. -/
def isHolder : TState → Bool
  | .critical => true
  | .initDone => true
  | .releasing => true
  | _ => false

/-- Global state: one control state per goroutine, the Once's done flag, its
mutex, the package `instance` pointer (nil as `none`), and how many times the
initializer body has run (each run allocates a fresh pointer). -/
structure GState : Type where
  threads : List TState
  done : Bool
  lockHeld : Bool
  inst : Option Nat
  alloc : Nat
deriving DecidableEq

/-- One atomic step of one goroutine, interleaved arbitrarily with the others.
The stepping goroutine sits between `l1` and `l2`. -/
inductive Step : GState → GState → Prop
  | fastPath (l1 l2 : List TState) (lk : Bool) (i : Option Nat) (a : Nat) :
      Step ⟨l1 ++ .start :: l2, true, lk, i, a⟩
        ⟨l1 ++ .finished (i.getD 0) :: l2, true, lk, i, a⟩
  | slowEnter (l1 l2 : List TState) (lk : Bool) (i : Option Nat) (a : Nat) :
      Step ⟨l1 ++ .start :: l2, false, lk, i, a⟩
        ⟨l1 ++ .waitingLock :: l2, false, lk, i, a⟩
  | acquire (l1 l2 : List TState) (d : Bool) (i : Option Nat) (a : Nat) :
      Step ⟨l1 ++ .waitingLock :: l2, d, false, i, a⟩
        ⟨l1 ++ .critical :: l2, d, true, i, a⟩
  | skipInit (l1 l2 : List TState) (lk : Bool) (i : Option Nat) (a : Nat) :
      Step ⟨l1 ++ .critical :: l2, true, lk, i, a⟩
        ⟨l1 ++ .releasing :: l2, true, lk, i, a⟩
  | runInit (l1 l2 : List TState) (lk : Bool) (i : Option Nat) (a : Nat) :
      Step ⟨l1 ++ .critical :: l2, false, lk, i, a⟩
        ⟨l1 ++ .initDone :: l2, false, lk, some a, a + 1⟩
  | setDone (l1 l2 : List TState) (d : Bool) (lk : Bool) (i : Option Nat) (a : Nat) :
      Step ⟨l1 ++ .initDone :: l2, d, lk, i, a⟩
        ⟨l1 ++ .releasing :: l2, true, lk, i, a⟩
  | release (l1 l2 : List TState) (d : Bool) (lk : Bool) (i : Option Nat) (a : Nat) :
      Step ⟨l1 ++ .releasing :: l2, d, lk, i, a⟩
        ⟨l1 ++ .finished (i.getD 0) :: l2, d, false, i, a⟩

/-- Reachability under arbitrary interleaving. -/
def Reach : GState → GState → Prop := Relation.ReflTransGen Step

/-- `n` goroutines all about to make their first `GetLogger()` call. -/
def initG (n : Nat) : GState :=
  ⟨List.replicate n .start, false, false, none, 0⟩

/-- The inductive invariant: the mutex count matches the holder states; the
done flag implies exactly one allocation; at most one allocation ever happens;
the instance pointer is exactly the first allocation when one happened; an
allocation with the done flag still unset means some goroutine is mid-init
(holding the mutex); a mid-init goroutine means the single allocation happened;
a goroutine about to unlock has already seen the flag set; a finished goroutine
returned pointer 0 and finished only after initialization completed. -/
def Inv (s : GState) : Prop :=
  s.threads.countP (fun t => isHolder t) = (if s.lockHeld then 1 else 0)
  ∧ (s.done = true → s.alloc = 1)
  ∧ s.alloc ≤ 1
  ∧ s.inst = (if 0 < s.alloc then some 0 else none)
  ∧ (s.done = false → 0 < s.alloc → TState.initDone ∈ s.threads)
  ∧ (TState.initDone ∈ s.threads → s.alloc = 1)
  ∧ (∀ t ∈ s.threads, t = TState.releasing → s.done = true)
  ∧ (∀ r : Nat, TState.finished r ∈ s.threads → r = 0 ∧ s.done = true)

end OnceModel

namespace OnceModel

lemma step_length {s s' : GState} (h : Step s s') :
    s'.threads.length = s.threads.length := by
  cases h <;> simp

lemma reach_length {s s' : GState} (h : Reach s s') :
    s'.threads.length = s.threads.length := by
  induction h with
  | refl => rfl
  | tail _ hstep ih => rw [step_length hstep, ih]

lemma inv_initG (n : Nat) : Inv (initG n) := by
  refine ⟨?_, ?_, ?_, ?_, ?_, ?_, ?_, ?_⟩
  · simp [initG, List.countP_eq_zero, List.mem_replicate, isHolder]
  · intro h
    exact Bool.noConfusion h
  · exact Nat.zero_le 1
  · simp [initG]
  · intro _ h
    simp [initG] at h
  · intro h
    simp [initG, List.mem_replicate] at h
  · intro t ht heq
    subst heq
    simp [initG, List.mem_replicate] at ht
  · intro r hr
    simp [initG, List.mem_replicate] at hr

lemma countP_split (l1 l2 : List TState) (x : TState) :
    (l1 ++ x :: l2).countP (fun t => isHolder t)
      = l1.countP (fun t => isHolder t) + l2.countP (fun t => isHolder t)
        + (isHolder x).toNat := by
  cases h : isHolder x
  · simp [List.countP_append, List.countP_cons, h]
  · simp [List.countP_append, List.countP_cons, h]
    omega

lemma toNat_start : (isHolder TState.start).toNat = 0 := rfl

lemma toNat_waiting : (isHolder TState.waitingLock).toNat = 0 := rfl

lemma toNat_critical : (isHolder TState.critical).toNat = 1 := rfl

lemma toNat_initDone : (isHolder TState.initDone).toNat = 1 := rfl

lemma toNat_releasing : (isHolder TState.releasing).toNat = 1 := rfl

lemma toNat_finished (r : Nat) : (isHolder (TState.finished r)).toNat = 0 := rfl

lemma ite_tt : (if true = true then (1 : Nat) else 0) = 1 := rfl

lemma ite_ff : (if false = true then (1 : Nat) else 0) = 0 := rfl

lemma mem_replace {α : Type} {l1 l2 : List α} {x y t : α}
    (h : t ∈ l1 ++ x :: l2) (hne : t ≠ x) : t ∈ l1 ++ y :: l2 := by
  rcases List.mem_append.mp h with h1 | h1
  · exact List.mem_append.mpr (Or.inl h1)
  · rcases List.mem_cons.mp h1 with h2 | h2
    · exact absurd h2 hne
    · exact List.mem_append.mpr (Or.inr (List.mem_cons_of_mem _ h2))

lemma mem_replace_cases {α : Type} {l1 l2 : List α} {x y t : α}
    (h : t ∈ l1 ++ y :: l2) : t = y ∨ t ∈ l1 ++ x :: l2 := by
  rcases List.mem_append.mp h with h1 | h1
  · exact Or.inr (List.mem_append.mpr (Or.inl h1))
  · rcases List.mem_cons.mp h1 with h2 | h2
    · exact Or.inl h2
    · exact Or.inr (List.mem_append.mpr (Or.inr (List.mem_cons_of_mem _ h2)))

lemma inv_step {s s' : GState} (hinv : Inv s) (hst : Step s s') : Inv s' := by
  obtain ⟨hA, hB, hC, hD, hE, hF, hG, hH⟩ := hinv
  cases hst <;> dsimp only [Inv] at hA hB hC hD hE hF hG hH ⊢
  case fastPath l1 l2 lk i a =>
      refine ⟨?_, hB, hC, hD, ?_, ?_, ?_, ?_⟩
      · rw [countP_split, toNat_start] at hA
        rw [countP_split, toNat_finished]
        exact hA
      · intro h
        exact Bool.noConfusion h
      · intro hm
        rcases mem_replace_cases (x := TState.start) hm with h | h
        · cases h
        · exact hF h
      · intro t ht heq
        rfl
      · intro r hr
        rcases mem_replace_cases (x := TState.start) hr with h | h
        · have ha : a = 1 := hB rfl
          have hD' : i = if 0 < a then some 0 else none := hD
          have hi : i = some 0 := by rw [hD', if_pos (by omega)]
          cases h
          refine ⟨?_, rfl⟩
          rw [hi]
          rfl
        · exact ⟨(hH r h).1, rfl⟩
  case slowEnter l1 l2 lk i a =>
      refine ⟨?_, hB, hC, hD, ?_, ?_, ?_, ?_⟩
      · rw [countP_split, toNat_start] at hA
        rw [countP_split, toNat_waiting]
        exact hA
      · intro hd hpos
        exact mem_replace (hE hd hpos) (by decide)
      · intro hm
        rcases mem_replace_cases (x := TState.start) hm with h | h
        · cases h
        · exact hF h
      · intro t ht heq
        subst heq
        rcases mem_replace_cases (x := TState.start) ht with h | h
        · cases h
        · exact hG _ h rfl
      · intro r hr
        rcases mem_replace_cases (x := TState.start) hr with h | h
        · cases h
        · exact hH r h
  case acquire l1 l2 d i a =>
      refine ⟨?_, hB, hC, hD, ?_, ?_, ?_, ?_⟩
      · rw [countP_split, toNat_waiting, ite_ff] at hA
        rw [countP_split, toNat_critical, ite_tt]
        omega
      · intro hd hpos
        exact mem_replace (hE hd hpos) (by decide)
      · intro hm
        rcases mem_replace_cases (x := TState.waitingLock) hm with h | h
        · cases h
        · exact hF h
      · intro t ht heq
        subst heq
        rcases mem_replace_cases (x := TState.waitingLock) ht with h | h
        · cases h
        · exact hG _ h rfl
      · intro r hr
        rcases mem_replace_cases (x := TState.waitingLock) hr with h | h
        · cases h
        · exact hH r h
  case skipInit l1 l2 lk i a =>
      refine ⟨?_, hB, hC, hD, ?_, ?_, ?_, ?_⟩
      · rw [countP_split, toNat_critical] at hA
        rw [countP_split, toNat_releasing]
        exact hA
      · intro h
        exact Bool.noConfusion h
      · intro hm
        rcases mem_replace_cases (x := TState.critical) hm with h | h
        · cases h
        · exact hF h
      · intro t ht heq
        rfl
      · intro r hr
        rcases mem_replace_cases (x := TState.critical) hr with h | h
        · cases h
        · exact ⟨(hH r h).1, rfl⟩
  case runInit l1 l2 lk i a =>
      have ha0 : a = 0 := by
        by_contra hne
        have hpos : 0 < a := Nat.pos_of_ne_zero hne
        have hm := hE rfl hpos
        have hm' : TState.initDone ∈ l1 ∨ TState.initDone ∈ l2 := by
          rcases List.mem_append.mp hm with h1 | h1
          · exact Or.inl h1
          · rcases List.mem_cons.mp h1 with h2 | h2
            · cases h2
            · exact Or.inr h2
        rw [countP_split, toNat_critical] at hA
        have hone : 0 < l1.countP (fun t => isHolder t)
            + l2.countP (fun t => isHolder t) := by
          rcases hm' with h | h
          · have h1 : 0 < l1.countP (fun t => isHolder t) :=
              List.countP_pos_iff.mpr ⟨_, h, rfl⟩
            omega
          · have h1 : 0 < l2.countP (fun t => isHolder t) :=
              List.countP_pos_iff.mpr ⟨_, h, rfl⟩
            omega
        cases lk
        · rw [ite_ff] at hA
          omega
        · rw [ite_tt] at hA
          omega
      subst ha0
      refine ⟨?_, ?_, ?_, ?_, ?_, ?_, ?_, ?_⟩
      · rw [countP_split, toNat_critical] at hA
        rw [countP_split, toNat_initDone]
        exact hA
      · intro h
        exact Bool.noConfusion h
      · exact Nat.le_refl 1
      · simp
      · intro _ _
        exact List.mem_append.mpr (Or.inr (List.mem_cons_self _ _))
      · intro _
        rfl
      · intro t ht heq
        subst heq
        rcases mem_replace_cases (x := TState.critical) ht with h | h
        · cases h
        · exact hG _ h rfl
      · intro r hr
        rcases mem_replace_cases (x := TState.critical) hr with h | h
        · cases h
        · exact hH r h
  case setDone l1 l2 d lk i a =>
      have ha : a = 1 := hF (List.mem_append.mpr (Or.inr (List.mem_cons_self _ _)))
      refine ⟨?_, fun _ => ha, hC, hD, ?_, ?_, ?_, ?_⟩
      · rw [countP_split, toNat_initDone] at hA
        rw [countP_split, toNat_releasing]
        exact hA
      · intro h
        exact Bool.noConfusion h
      · intro hm
        rcases mem_replace_cases (x := TState.initDone) hm with h | h
        · cases h
        · exact hF h
      · intro t ht heq
        rfl
      · intro r hr
        rcases mem_replace_cases (x := TState.initDone) hr with h | h
        · cases h
        · exact ⟨(hH r h).1, rfl⟩
  case release l1 l2 d lk i a =>
      have hd : d = true :=
        hG _ (List.mem_append.mpr (Or.inr (List.mem_cons_self _ _))) rfl
      subst hd
      have ha : a = 1 := hB rfl
      have hD' : i = if 0 < a then some 0 else none := hD
      have hi : i = some 0 := by rw [hD', if_pos (by omega)]
      refine ⟨?_, hB, hC, hD, ?_, ?_, ?_, ?_⟩
      · rw [countP_split, toNat_releasing] at hA
        rw [countP_split, toNat_finished, ite_ff]
        cases lk
        · rw [ite_ff] at hA
          omega
        · rw [ite_tt] at hA
          omega
      · intro h
        exact Bool.noConfusion h
      · intro hm
        rcases mem_replace_cases (x := TState.releasing) hm with h | h
        · cases h
        · exact hF h
      · intro t ht heq
        rfl
      · intro r hr
        rcases mem_replace_cases (x := TState.releasing) hr with h | h
        · cases h
          refine ⟨?_, rfl⟩
          rw [hi]
          rfl
        · exact ⟨(hH r h).1, rfl⟩

lemma reach_inv {n : Nat} {s : GState} (h : Reach (initG n) s) : Inv s := by
  induction h with
  | refl => exact inv_initG n
  | tail _ hstep ih => exact inv_step ih hstep

end OnceModel

namespace CommandDemo

lemma undo_execute (c : Cmd) (b : Bool) (hne : b ≠ c.execute b) :
    c.undo (c.execute b) = b := by
  cases c <;> cases b <;> simp [Cmd.execute, Cmd.undo] at hne ⊢

end CommandDemo

namespace ObserverDemo

lemma removeFirst_not_mem {o : Subscriber} {l : List Subscriber} (h : o ∉ l) :
    removeFirst o l = l := by
  induction l with
  | nil => rfl
  | cons x xs ih =>
      have hx : ¬ x = o := fun he => h (he ▸ List.mem_cons_self x xs)
      rw [removeFirst, if_neg hx, ih (fun hm => h (List.mem_cons_of_mem _ hm))]

lemma removeFirst_append_self (o : Subscriber) (l1 l2 : List Subscriber)
    (h : o ∉ l1) : removeFirst o (l1 ++ o :: l2) = l1 ++ l2 := by
  induction l1 with
  | nil => simp [removeFirst]
  | cons x xs ih =>
      have hx : ¬ x = o := fun he => h (he ▸ List.mem_cons_self x xs)
      simp only [List.cons_append, removeFirst, if_neg hx]
      exact congrArg (List.cons x) (ih (fun hm => h (List.mem_cons_of_mem _ hm)))

lemma count_removeFirst (o : Subscriber) (l : List Subscriber) :
    (removeFirst o l).count o = l.count o - 1 := by
  induction l with
  | nil => rfl
  | cons x xs ih =>
      by_cases hx : x = o
      · subst hx
        simp [removeFirst, List.count_cons]
      · simp [removeFirst, hx, List.count_cons, ih]

lemma notifyTrace_map (e : String) (l : List Subscriber) :
    notifyTrace e l = l.map (fun s => (s, e)) := by
  induction l with
  | nil => rfl
  | cons x xs ih => simp [notifyTrace, ih]

lemma updatesTo_notifyTrace (o : Subscriber) (e : String) (l : List Subscriber) :
    updatesTo o (notifyTrace e l) = l.count o := by
  induction l with
  | nil => rfl
  | cons x xs ih =>
      by_cases hx : x = o <;>
        simp [notifyTrace, updatesTo, List.countP_cons, List.count_cons, hx] <;>
        simp [updatesTo] at ih <;> omega

end ObserverDemo

namespace SingletonDemo

lemma runGetLogger_spec (n : Nat) :
    (runGetLogger n).1 = List.replicate n 0
    ∧ (runGetLogger n).2
        = if n = 0 then initState
          else { inst := some 0, onceDone := true, nextPtr := 1, constructions := 1 } := by
  induction n with
  | zero => exact ⟨rfl, rfl⟩
  | succ k ih =>
      obtain ⟨ih1, ih2⟩ := ih
      by_cases hk : k = 0
      · subst hk
        refine ⟨rfl, rfl⟩
      · rw [if_neg hk] at ih2
        have hsplit : runGetLogger k
            = (List.replicate k 0,
               { inst := some 0, onceDone := true, nextPtr := 1, constructions := 1 }) :=
          Prod.ext ih1 ih2
        constructor
        · show (runGetLogger (k + 1)).1 = _
          simp only [runGetLogger]
          rw [hsplit]
          simp [getLogger, List.replicate_succ']
        · show (runGetLogger (k + 1)).2 = _
          simp only [runGetLogger]
          rw [hsplit]
          simp [getLogger]

end SingletonDemo

namespace FactoryStrategy

lemma resolve_known_iff (k : String) :
    (∃ p, NewPaymentProcessor k = Except.ok p)
      ↔ (k = "paypal" ∨ k = "stripe" ∨ k = "crypto") := by
  unfold NewPaymentProcessor
  split_ifs <;> simp [*]

lemma resolve_unknown (k : String) (h1 : k ≠ "paypal") (h2 : k ≠ "stripe")
    (h3 : k ≠ "crypto") :
    NewPaymentProcessor k = Except.error ("unsupported provider: " ++ k) := by
  unfold NewPaymentProcessor
  rw [if_neg h1, if_neg h2, if_neg h3]

end FactoryStrategy

namespace NotifierFactory

lemma notifer_some_iff (k : String) :
    NewNotifer k ≠ none ↔ (k = "email" ∨ k = "sms") := by
  unfold NewNotifer
  split_ifs <;> simp [*]

lemma notifer_unknown (k : String) (h1 : k ≠ "email") (h2 : k ≠ "sms") :
    NewNotifer k = none := by
  unfold NewNotifer
  rw [if_neg h1, if_neg h2]

end NotifierFactory

namespace EnvFactory

lemma env_resolve_unknown (k : String) (h1 : k ≠ "paypal") (h2 : k ≠ "stripe") :
    NewPaymentProcessor k = Except.error ("unsupported payment provider: " ++ k) := by
  unfold NewPaymentProcessor
  rw [if_neg h1, if_neg h2]

end EnvFactory

/-- Claim C1, counterexample: the notifier registry's resolve (`NewNotifer`)
returns the nil interface (`none`) for the unknown key "push", with no error
value at all — a null-like silent result, not an explicit failure. -/
theorem C1_counterexample :
    NotifierFactory.NewNotifer "push" = none
    ∧ "push" ≠ "email" ∧ "push" ≠ "sms" := by
  decide

/-- Claim C1 (amended): the payment-processor registry resolves exactly its
known keys (case-sensitively) and returns an explicit error naming any other
key; the notifier registry `NewNotifer` resolves exactly "email"/"sms" but
returns the nil interface, not an error, for every other key. -/
theorem C1_registry_resolution (k : String) :
    ((∃ p, FactoryStrategy.NewPaymentProcessor k = Except.ok p)
        ↔ (k = "paypal" ∨ k = "stripe" ∨ k = "crypto"))
    ∧ (k ≠ "paypal" → k ≠ "stripe" → k ≠ "crypto" →
        FactoryStrategy.NewPaymentProcessor k
          = Except.error ("unsupported provider: " ++ k))
    ∧ (NotifierFactory.NewNotifer k ≠ none ↔ (k = "email" ∨ k = "sms"))
    ∧ (k ≠ "email" → k ≠ "sms" → NotifierFactory.NewNotifer k = none) :=
  ⟨FactoryStrategy.resolve_known_iff k,
   fun h1 h2 h3 => FactoryStrategy.resolve_unknown k h1 h2 h3,
   NotifierFactory.notifer_some_iff k,
   fun h1 h2 => NotifierFactory.notifer_unknown k h1 h2⟩

/-- Witness for C1_registry_resolution at the concrete key "bitcoin". -/
theorem C1_registry_resolution_witness :
    ((∃ p, FactoryStrategy.NewPaymentProcessor "bitcoin" = Except.ok p)
        ↔ ("bitcoin" = "paypal" ∨ "bitcoin" = "stripe" ∨ "bitcoin" = "crypto"))
    ∧ FactoryStrategy.NewPaymentProcessor "bitcoin"
        = Except.error ("unsupported provider: " ++ "bitcoin")
    ∧ NotifierFactory.NewNotifer "bitcoin" = none :=
  ⟨(C1_registry_resolution "bitcoin").1,
   (C1_registry_resolution "bitcoin").2.1 (by decide) (by decide) (by decide),
   (C1_registry_resolution "bitcoin").2.2.2 (by decide) (by decide)⟩

/-- Claim C2: the env-var demo's `main` reads PAYMENT_PROVIDER, discards the
factory's error with `procesor, _ :=`, and then calls `ProcessPayment` on the
nil interface: when the variable is absent (Getenv yields "") or holds an
unknown value, the program panics with a nil pointer dereference instead of
surfacing the unsupported-variant failure. The factory itself does return the
explicit error, but `main` throws it away. -/
theorem C2_env_demo_crashes :
    EnvFactory.mainRun none
      = EnvFactory.RunOutcome.crashed
          "runtime error: invalid memory address or nil pointer dereference"
    ∧ EnvFactory.mainRun (some "bitcoin")
      = EnvFactory.RunOutcome.crashed
          "runtime error: invalid memory address or nil pointer dereference"
    ∧ EnvFactory.NewPaymentProcessor ""
      = Except.error ("unsupported payment provider: " ++ "") :=
  ⟨rfl, rfl, rfl⟩

/-- Claim C3, counterexample: with the light initially ON and slot 0 holding
`LightOnCommand`, pressing slot 0 and undoing leaves the light OFF — not equal
to its state before the press. -/
theorem C3_counterexample :
    ¬ (CommandDemo.undoLast (CommandDemo.pressButton 0
          ⟨true, [CommandDemo.Cmd.lightOnCommand, CommandDemo.Cmd.lightOffCommand], []⟩)
        = ⟨true, [CommandDemo.Cmd.lightOnCommand, CommandDemo.Cmd.lightOffCommand], []⟩) := by
  decide

/-- Claim C3 (amended): for every invoker state and configured slot whose
command targets the opposite of the current light state, press(slot) then
undoLast() restores the entire prior state (light, command list and history);
when the light already equals the command's target, the undo instead leaves
the opposite state. -/
theorem C3_press_then_undo (s : CommandDemo.RCState) (i : Nat)
    (h : i < s.commands.length)
    (hne : s.isOn ≠ (s.commands.get ⟨i, h⟩).execute s.isOn) :
    CommandDemo.undoLast (CommandDemo.pressButton i s) = s := by
  unfold CommandDemo.pressButton
  rw [dif_pos h]
  unfold CommandDemo.undoLast
  simp only [List.getLast?_concat]
  rw [List.dropLast_concat]
  rw [CommandDemo.undo_execute _ _ hne]

/-- Witness for C3_press_then_undo: light OFF, slot 0 holds LightOn. -/
theorem C3_press_then_undo_witness :
    CommandDemo.undoLast (CommandDemo.pressButton 0
        ⟨false, [CommandDemo.Cmd.lightOnCommand], []⟩)
      = ⟨false, [CommandDemo.Cmd.lightOnCommand], []⟩ :=
  C3_press_then_undo ⟨false, [CommandDemo.Cmd.lightOnCommand], []⟩ 0
    (by decide) (by decide)

/-- Claim C4: in decorator/example2, the `Rewards` wrapper (and the
`CardDecorator` base wrapper) return constants from both overridden
operations and never invoke the wrapped inner `PaymentCard` — the fee of a
doubly-wrapped card stays 50 instead of accumulating, the features string

never gains ", Cashback Rewards", and both results are independent of the
wrapped inner value, exhibiting the omitted inward call. -/
theorem C4_missing_delegation :
    (CardDemo.PaymentCard.rewards
        (CardDemo.PaymentCard.rewards CardDemo.PaymentCard.basiCard)).getAnnualFee = 50
    ∧ (CardDemo.PaymentCard.rewards CardDemo.PaymentCard.basiCard).getFeatures
        = "Features: Basic Payment"
    ∧ (∀ c c' : CardDemo.PaymentCard,
        (CardDemo.PaymentCard.rewards c).getAnnualFee
            = (CardDemo.PaymentCard.rewards c').getAnnualFee
        ∧ (CardDemo.PaymentCard.rewards c).getFeatures
            = (CardDemo.PaymentCard.rewards c').getFeatures) :=
  ⟨rfl, rfl, fun _ _ => ⟨rfl, rfl⟩⟩

/-- Claim C5, counterexample: with observer 0 registered twice (duplicates are
permitted), unregister(0) removes only the first occurrence, so a subsequent
notify still delivers one further update to 0 — not zero. -/
theorem C5_counterexample :
    ¬ (ObserverDemo.updatesTo 0
        (ObserverDemo.notify "e" (ObserverDemo.unregister 0 ⟨[0, 0]⟩)) = 0) := by
  decide

/-- Claim C5 (amended): unregister(o) removes exactly the first matching
occurrence, leaving all other entries in order, and is a no-op (raising
nothing) when no match is present; after unregister(o), a subsequent notify
delivers one update per remaining registered occurrence of o — in particular
zero when o was registered at most once. -/
theorem C5_unregister_first_match (o : ObserverDemo.Subscriber)
    (p : ObserverDemo.Publisher) (e : String) :
    (o ∉ p.subscribers → ObserverDemo.unregister o p = p)
    ∧ (∀ l1 l2, p.subscribers = l1 ++ o :: l2 → o ∉ l1 →
        (ObserverDemo.unregister o p).subscribers = l1 ++ l2)
    ∧ (ObserverDemo.updatesTo o (ObserverDemo.notify e (ObserverDemo.unregister o p))
        = p.subscribers.count o - 1)
    ∧ (p.subscribers.count o ≤ 1 →
        ObserverDemo.updatesTo o (ObserverDemo.notify e (ObserverDemo.unregister o p))
          = 0) := by
  have hcount : ObserverDemo.updatesTo o
      (ObserverDemo.notify e (ObserverDemo.unregister o p))
        = p.subscribers.count o - 1 := by
    have h1 := ObserverDemo.updatesTo_notifyTrace o e
      (ObserverDemo.removeFirst o p.subscribers)
    have h2 := ObserverDemo.count_removeFirst o p.subscribers
    exact h1.trans h2
  refine ⟨?_, ?_, hcount, ?_⟩
  · intro h
    unfold ObserverDemo.unregister
    rw [ObserverDemo.removeFirst_not_mem h]
  · intro l1 l2 hsplit hno
    show ObserverDemo.removeFirst o p.subscribers = l1 ++ l2
    rw [hsplit]
    exact ObserverDemo.removeFirst_append_self o l1 l2 hno
  · intro hle
    rw [hcount]
    omega

/-- Witness for C5_unregister_first_match on the publisher [1, 0, 2]. -/
theorem C5_unregister_first_match_witness :
    (ObserverDemo.unregister 3 ⟨[1, 0, 2]⟩ = ⟨[1, 0, 2]⟩)
    ∧ ((ObserverDemo.unregister 0 ⟨[1, 0, 2]⟩).subscribers = [1] ++ [2])
    ∧ (ObserverDemo.updatesTo 0
        (ObserverDemo.notify "a" (ObserverDemo.unregister 0 ⟨[1, 0, 2]⟩)) = 0) :=
  ⟨(C5_unregister_first_match 3 ⟨[1, 0, 2]⟩ "a").1 (by decide),
   (C5_unregister_first_match 0 ⟨[1, 0, 2]⟩ "a").2.1 [1] [2] (by decide) (by decide),
   (C5_unregister_first_match 0 ⟨[1, 0, 2]⟩ "a").2.2.2 (by decide)⟩

/-- Claim C6: any number of sequential getInstance calls construct the
underlying instance at most once, and every call returns the identical
instance pointer (the single allocation, pointer 0). -/
theorem C6_singleton_at_most_once (n : Nat) :
    (SingletonDemo.runGetLogger n).1 = List.replicate n 0
    ∧ (SingletonDemo.runGetLogger n).2.constructions ≤ 1 := by
  obtain ⟨h1, h2⟩ := SingletonDemo.runGetLogger_spec n
  refine ⟨h1, ?_⟩
  rw [h2]
  by_cases hn : n = 0
  · simp [hn, SingletonDemo.initState]
  · simp [hn]

/-- Claim C7: in every interleaving of N goroutines racing through the
sync.Once guard of getInstance, no goroutine returns before initialization has
completed, every returned reference is the single allocated pointer, and once
all N goroutines (N ≥ 1) have finished, the initializer has run exactly once
and all N hold the identical reference. -/
theorem C7_once_single_init (n : Nat) (s : OnceModel.GState)
    (hreach : OnceModel.Reach (OnceModel.initG n) s) :
    (∀ r : Nat, OnceModel.TState.finished r ∈ s.threads → r = 0 ∧ s.done = true)
    ∧ ((0 < n ∧ ∀ t ∈ s.threads, ∃ r : Nat, t = OnceModel.TState.finished r) →
        s.alloc = 1 ∧ ∀ t ∈ s.threads, t = OnceModel.TState.finished 0) := by
  obtain ⟨hA, hB, hC, hD, hE, hF, hG, hH⟩ := OnceModel.reach_inv hreach
  refine ⟨hH, ?_⟩
  rintro ⟨hn, hfin⟩
  have hlen : s.threads.length = n := by
    have h := OnceModel.reach_length hreach
    simpa [OnceModel.initG] using h
  have hne : s.threads ≠ [] := by
    intro h0
    rw [h0] at hlen
    simp at hlen
    omega
  obtain ⟨t0, ht0⟩ := List.exists_mem_of_ne_nil _ hne
  obtain ⟨r0, hr0⟩ := hfin t0 ht0
  have hd : s.done = true := (hH r0 (hr0 ▸ ht0)).2
  have halloc : s.alloc = 1 := hB hd
  refine ⟨halloc, ?_⟩
  intro t ht
  obtain ⟨r, hr⟩ := hfin t ht
  have hz := (hH r (hr ▸ ht)).1
  rw [hr, hz]

/-- Witness for C7_once_single_init: one goroutine runs the full slow path
(fast-path check, lock, init, set done, unlock) and finishes with pointer 0. -/
theorem C7_once_single_init_witness :
    (⟨[OnceModel.TState.finished 0], true, false, some 0, 1⟩ : OnceModel.GState).alloc = 1
    ∧ ∀ t ∈ (⟨[OnceModel.TState.finished 0], true, false, some 0, 1⟩
        : OnceModel.GState).threads, t = OnceModel.TState.finished 0 := by
  have s1 : OnceModel.Step (OnceModel.initG 1)
      ⟨[OnceModel.TState.waitingLock], false, false, none, 0⟩ :=
    OnceModel.Step.slowEnter [] [] false none 0
  have s2 : OnceModel.Step ⟨[OnceModel.TState.waitingLock], false, false, none, 0⟩
      ⟨[OnceModel.TState.critical], false, true, none, 0⟩ :=
    OnceModel.Step.acquire [] [] false none 0
  have s3 : OnceModel.Step ⟨[OnceModel.TState.critical], false, true, none, 0⟩
      ⟨[OnceModel.TState.initDone], false, true, some 0, 1⟩ :=
    OnceModel.Step.runInit [] [] true none 0
  have s4 : OnceModel.Step ⟨[OnceModel.TState.initDone], false, true, some 0, 1⟩
      ⟨[OnceModel.TState.releasing], true, true, some 0, 1⟩ :=
    OnceModel.Step.setDone [] [] false true (some 0) 1
  have s5 : OnceModel.Step ⟨[OnceModel.TState.releasing], true, true, some 0, 1⟩
      ⟨[OnceModel.TState.finished 0], true, false, some 0, 1⟩ :=
    OnceModel.Step.release [] [] true true (some 0) 1
  have hreach : OnceModel.Reach (OnceModel.initG 1)
      ⟨[OnceModel.TState.finished 0], true, false, some 0, 1⟩ :=
    Relation.ReflTransGen.head s1 (Relation.ReflTransGen.head s2
      (Relation.ReflTransGen.head s3 (Relation.ReflTransGen.head s4
        (Relation.ReflTransGen.single s5))))
  refine (C7_once_single_init 1 _ hreach).2 ⟨Nat.one_pos, ?_⟩
  intro t ht
  have h := List.mem_singleton.mp ht
  exact ⟨0, h⟩

/-- Claim C8: notify(e) synchronously invokes each registered occurrence's
update exactly once, with payload e, in registration order: the invocation
trace is exactly the subscriber list paired with e, and each observer o
receives exactly as many updates as it has registered occurrences. -/
theorem C8_notify_in_order (p : ObserverDemo.Publisher) (e : String)
    (o : ObserverDemo.Subscriber) :
    ObserverDemo.notify e p = p.subscribers.map (fun s => (s, e))
    ∧ ObserverDemo.updatesTo o (ObserverDemo.notify e p) = p.subscribers.count o :=
  ⟨ObserverDemo.notifyTrace_map e p.subscribers,
   ObserverDemo.updatesTo_notifyTrace o e p.subscribers⟩

/-- Claim C9: wrapping the base coffee with Milk then Sugar yields cost
5 + 2 + 1 = 8 and ingredients "Coffee, Milk, Sugar", and each wrapper's result
is exactly its increment applied to the inner result. -/
theorem C9_decorator_chain :
    (CoffeeShop.Coffee.sugar (CoffeeShop.Coffee.milk CoffeeShop.Coffee.simple)).cost = 8
    ∧ (CoffeeShop.Coffee.sugar (CoffeeShop.Coffee.milk CoffeeShop.Coffee.simple)).ingredients
        = "Coffee, Milk, Sugar"
    ∧ (∀ c : CoffeeShop.Coffee,
        (CoffeeShop.Coffee.milk c).cost = c.cost + 2
        ∧ (CoffeeShop.Coffee.sugar c).cost = c.cost + 1
        ∧ (CoffeeShop.Coffee.milk c).ingredients = c.ingredients ++ ", Milk"
        ∧ (CoffeeShop.Coffee.sugar c).ingredients = c.ingredients ++ ", Sugar")
    ∧ CoffeeShop.Coffee.simple.cost = 5
    ∧ CoffeeShop.Coffee.simple.ingredients = "Coffee" :=
  ⟨by decide, rfl, fun _ => ⟨rfl, rfl, rfl, rfl⟩, rfl, rfl⟩

/-- Claim C10: pressing any slot index at or beyond the configured command
count leaves the entire invoker and receiver state unchanged — no command
runs, the history does not grow, and nothing fails. -/
theorem C10_press_out_of_range (s : CommandDemo.RCState) (i : Nat)
    (h : s.commands.length ≤ i) :
    CommandDemo.pressButton i s = s := by
  unfold CommandDemo.pressButton
  rw [dif_neg (by omega)]

/-- Witness for C10_press_out_of_range: pressing slot 5 with two commands. -/
theorem C10_press_out_of_range_witness :
    CommandDemo.pressButton 5
        ⟨false, [CommandDemo.Cmd.lightOnCommand, CommandDemo.Cmd.lightOffCommand], []⟩
      = ⟨false, [CommandDemo.Cmd.lightOnCommand, CommandDemo.Cmd.lightOffCommand], []⟩ :=
  C10_press_out_of_range
    ⟨false, [CommandDemo.Cmd.lightOnCommand, CommandDemo.Cmd.lightOffCommand], []⟩ 5
    (by decide)
